import Mathlib

/-!
# Verification of the mcpm core against its specification

Shallow embedding of the three core subsystems of the `mcpm` tool
(discovery/merge, config mutation, health probing) from
`src/discovery.rs`, `src/config_writer.rs`, `src/health.rs` and
`src/types.rs`, together with theorems settling the specification claims.

JSON documents are modelled by an inductive `Json` type; `serde_json`
maps are modelled as association lists whose list order stands in for the
map's iteration order (serde's `Map` iterates in sorted key order; no
claim depends on which total order it is).  Numbers carry their lexeme,
since no claim inspects numeric values.  The filesystem is modelled as a
function from path strings to a `FileState` (absent / malformed /
parsed document); `std::fs::read_to_string` plus `serde_json::from_str`
on a config file is thereby abstracted into a single observation, while
the byte-level wire protocol of the health probe is modelled concretely
(UTF-8 decoding and a JSON text parser mirroring `serde_json::from_str`).
-/

/-- Model of `serde_json::Value`.  Object fields are an association list in
iteration order; `num` keeps the numeric lexeme (no claim inspects it). -/
inductive Json where
  | null
  | bool (b : Bool)
  | num (raw : String)
  | str (s : String)
  | arr (elems : List Json)
  | obj (fields : List (String × Json))

/-- First binding of a key in an association list (`serde_json::Map::get`). -/
def lookupField : List (String × Json) → String → Option Json
  | [], _ => none
  | (k, v) :: rest, key => if k = key then some v else lookupField rest key

/-- `Value::get` with a string index: `Some` only on objects that have the key. -/
def Json.get : Json → String → Option Json
  | .obj fields, k => lookupField fields k
  | _, _ => none

/-- `Value::as_str`. -/
def Json.as_str : Json → Option String
  | .str s => some s
  | _ => none

/-- `Value::as_object` (fields in iteration order). -/
def Json.as_object : Json → Option (List (String × Json))
  | .obj fields => some fields
  | _ => none

/-- `Value::as_array`. -/
def Json.as_array : Json → Option (List Json)
  | .arr elems => some elems
  | _ => none

/-- `Value::is_object`. -/
def Json.isObj : Json → Bool
  | .obj _ => true
  | _ => false

/-- `Value`'s non-mutating `Index` impl: missing keys and non-objects
yield `Null`. -/
def Json.index (j : Json) (k : String) : Json :=
  (j.get k).getD .null

/-- `obj[k].as_str().unwrap_or("")`, the tolerant string-field access used
throughout `parse_transport`. -/
def strField (j : Json) (k : String) : String :=
  ((j.get k).bind Json.as_str).getD ""

/-- `ClientKind` from `src/types.rs`. -/
inductive ClientKind where
  | claudeCodeGlobal
  | claudeCodeProject
  | cursorGlobal
  | cursorProject
  | vsCodeProject
  | windsurf
  | claudeDesktop
deriving DecidableEq, BEq

/-- `ClientKind::all` (display order) from `src/types.rs`. -/
def ClientKind.all : List ClientKind :=
  [.claudeCodeGlobal, .claudeCodeProject, .cursorGlobal, .cursorProject,
   .vsCodeProject, .windsurf, .claudeDesktop]

/-- `Transport` from `src/types.rs`; string maps are association lists. -/
inductive Transport where
  | http (url : String) (headers : Option (List (String × String)))
  | sse (url : String)
  | stdio (command : String) (args : List String)
  | unknown
deriving DecidableEq, BEq

/-- `Transport::is_stdio`. -/
def Transport.is_stdio : Transport → Bool
  | .stdio _ _ => true
  | _ => false

/-- `HealthStatus` from `src/types.rs`. -/
inductive HealthStatus where
  | unchecked
  | checking
  | healthy (server_name : String) (server_version : String)
  | timeout
  | error (e : String)
deriving DecidableEq, BEq

/-- `McpServer` from `src/types.rs`.  `last_checked : Option<Instant>` is
omitted: discovery always creates it as `None` and no claim observes it. -/
structure McpServer where
  name : String
  client : ClientKind
  source_path : String
  transport : Transport
  env : Option (List (String × String))
  health : HealthStatus
deriving DecidableEq, BEq

/-- `DiscoveryResult` from `src/types.rs`. -/
structure DiscoveryResult where
  servers : List McpServer
  active_clients : List ClientKind
  errors : List String

/-- `parse_string_map` from `src/discovery.rs`: `Some` only when the value
is an object; non-string members are dropped. -/
def parse_string_map (v : Option Json) : Option (List (String × String)) :=
  (v.bind Json.as_object).map
    (fun m => m.filterMap (fun p => (Json.as_str p.2).map (fun s => (p.1, s))))

/-- `parse_transport` from `src/discovery.rs` (lines 63-96), including the
guard order of the Rust `match`. -/
def parse_transport (j : Json) : Transport :=
  let ttype := strField j "type"
  if ttype = "http" then
    .http (strField j "url") (parse_string_map (j.get "headers"))
  else if ttype = "sse" then
    .sse (strField j "url")
  else if (j.get "command").isSome || ttype = "stdio" then
    .stdio (strField j "command")
      ((((j.get "args").bind Json.as_array).map
        (fun a => a.filterMap Json.as_str)).getD [])
  else if (j.get "url").isSome then
    .http (strField j "url") (parse_string_map (j.get "headers"))
  else
    .unknown

/-- `build_server_value` from `src/config_writer.rs` (lines 9-30). -/
def build_server_value (command : String) (args : List String)
    (env : List (String × String)) : Json :=
  .obj ([("command", .str command)]
    ++ (if args.isEmpty then [] else [("args", .arr (args.map .str))])
    ++ (if env.isEmpty then [] else
        [("env", .obj (env.map (fun p => (p.1, .str p.2))))]))

/-- `parse_server_map` from `src/discovery.rs` (lines 106-123): only
object-valued entries become servers; `health` starts `Unchecked`. -/
def parse_server_map (m : List (String × Json)) (client : ClientKind)
    (source : String) : List McpServer :=
  (m.filter (fun p => p.2.isObj)).map (fun p =>
    { name := p.1, client := client, source_path := source,
      transport := parse_transport p.2,
      env := parse_string_map (p.2.get "env"),
      health := .unchecked })

/-- The root-level `mcpServers` object of `~/.claude.json`
(`root["mcpServers"].as_object()`, empty when missing or non-object). -/
def ccRootMap (root : Json) : List (String × Json) :=
  ((root.get "mcpServers").bind Json.as_object).getD []

/-- The per-project `mcpServers` objects of `~/.claude.json`, in the
iteration order of the `projects` map. -/
def ccProjectMaps (root : Json) : List (List (String × Json)) :=
  (((root.get "projects").bind Json.as_object).getD []).map
    (fun p => ((p.2.get "mcpServers").bind Json.as_object).getD [])

/-- Servers contributed by the root map of `~/.claude.json`. -/
def ccRootServers (root : Json) (src : String) : List McpServer :=
  parse_server_map (ccRootMap root) .claudeCodeGlobal src

/-- Servers contributed by the project maps of `~/.claude.json`, flattened
in processing order, before deduplication. -/
def ccProjectServers (root : Json) (src : String) : List McpServer :=
  ((ccProjectMaps root).map (fun m => parse_server_map m .claudeCodeGlobal src)).flatten

/-- The `seen.insert` filter of `scan_claude_code_global`: keep a server
only if its name was not already seen, always recording the name. -/
def dedupByName : List String → List McpServer → List McpServer
  | _, [] => []
  | seen, s :: rest =>
    if seen.contains s.name then dedupByName (s.name :: seen) rest
    else s :: dedupByName (s.name :: seen) rest

/-- The servers pushed by `scan_claude_code_global` from `src/discovery.rs`
(lines 130-158): all root-map servers first (each name recorded as seen),
then project servers whose name was not seen before. -/
def ccGlobalServers (root : Json) (src : String) : List McpServer :=
  ccRootServers root src
    ++ dedupByName ((ccRootServers root src).map (fun s => s.name))
        (ccProjectServers root src)

/-- Servers extracted by `scan_wrapped` from a parsed config. -/
def wrappedServers (client : ClientKind) (root : Json) (src : String) :
    List McpServer :=
  match (root.get "mcpServers").bind Json.as_object with
  | some m => parse_server_map m client src
  | none => []

/-- Servers extracted by `scan_mcp_json` (lines 161-178): wrapped
`mcpServers` first, otherwise every top-level object-valued key. -/
def mcpJsonServers (root : Json) (src : String) : List McpServer :=
  match (root.get "mcpServers").bind Json.as_object with
  | some m => parse_server_map m .claudeCodeProject src
  | none =>
    match root.as_object with
    | some m => parse_server_map m .claudeCodeProject src
    | none => []

/-- Servers extracted by `scan_vscode` (lines 194-209): the `servers` key
with `mcpServers` as fallback. -/
def vscodeServers (root : Json) (src : String) : List McpServer :=
  match (root.get "servers").bind Json.as_object with
  | some m => parse_server_map m .vsCodeProject src
  | none =>
    match (root.get "mcpServers").bind Json.as_object with
    | some m => parse_server_map m .vsCodeProject src
    | none => []

/-- State of one path on the modelled filesystem: missing, present but not
parseable as JSON (carrying `serde_json`'s error text), or parsed. -/
inductive FileState where
  | absent
  | malformed (e : String)
  | valid (j : Json)

/-- Whether `std::fs::read_to_string` would succeed (`Path::exists`). -/
def FileState.isPresent : FileState → Bool
  | .absent => false
  | _ => true

/-- Whether the file is present but fails to parse. -/
def FileState.isMalformed : FileState → Bool
  | .malformed _ => true
  | _ => false

/-- The filesystem as observed through read-then-parse. -/
abbrev FS := String → FileState

/-- One scanner invocation at a path: `read_json_with_errors` from
`src/discovery.rs` (lines 48-61) followed by that scanner's extraction.
Absent files are skipped silently; malformed files record
`"<path>: <error>"` and contribute no servers. -/
def scanStepAt (fs : FS) (p : String) (parse : Json → String → List McpServer) :
    List McpServer × List String :=
  match fs p with
  | .absent => ([], [])
  | .malformed e => ([], [p ++ ": " ++ e])
  | .valid j => (parse j p, [])

/-- Run a list of (path, scanner) sources in order, concatenating servers
and errors in scan order. -/
def runScans (fs : FS) :
    List (String × (Json → String → List McpServer)) →
    List McpServer × List String
  | [] => ([], [])
  | (p, parse) :: rest =>
    let here := scanStepAt fs p parse
    let tail := runScans fs rest
    (here.1 ++ tail.1, here.2 ++ tail.2)

/-- The fixed scan locations of `discover` (lines 12-36), in scan order,
with `home` and `cwd` as parameters. -/
def scanList (home cwd : String) :
    List (String × (Json → String → List McpServer)) :=
  [ (home ++ "/.claude.json", ccGlobalServers),
    (cwd ++ "/.mcp.json", mcpJsonServers),
    (home ++ "/.cursor/mcp.json", wrappedServers .cursorGlobal),
    (cwd ++ "/.cursor/mcp.json", wrappedServers .cursorProject),
    (cwd ++ "/.vscode/mcp.json", vscodeServers),
    (home ++ "/.codeium/windsurf/mcp_config.json", wrappedServers .windsurf) ]

/-- First Claude Desktop candidate path (macOS). -/
def desktopCand1 (home : String) : String :=
  home ++ "/Library/Application Support/Claude/claude_desktop_config.json"

/-- Second Claude Desktop candidate path (Linux). -/
def desktopCand2 (home : String) : String :=
  home ++ "/.config/Claude/claude_desktop_config.json"

/-- `scan_claude_desktop` (lines 212-223): only the first existing
candidate is scanned. -/
def desktopScan (fs : FS) (home : String) : List McpServer × List String :=
  if (fs (desktopCand1 home)).isPresent then
    scanStepAt fs (desktopCand1 home) (wrappedServers .claudeDesktop)
  else if (fs (desktopCand2 home)).isPresent then
    scanStepAt fs (desktopCand2 home) (wrappedServers .claudeDesktop)
  else
    ([], [])

/-- `discover` from `src/discovery.rs` (lines 12-36) over the modelled
filesystem: all sources scanned in order, then `active_clients` computed
from the clients that contributed at least one server. -/
def discover (fs : FS) (home cwd : String) : DiscoveryResult :=
  let main := runScans fs (scanList home cwd)
  let desk := desktopScan fs home
  let servers := main.1 ++ desk.1
  let seen := servers.map (fun s => s.client)
  { servers := servers,
    active_clients := ClientKind.all.filter (fun c => seen.contains c),
    errors := main.2 ++ desk.2 }

/-- Index (0-based) of the last occurrence of a character, if any. -/
def lastIdxOf (c : Char) (l : List Char) : Option Nat :=
  ((l.zip (List.range l.length)).filter (fun p => p.1 = c)).getLast?.map
    (fun p => p.2)

/-- Model of `Path::with_extension` for a non-empty extension: in the final
path component, everything from the last dot on (a leading dot does not
start an extension) is replaced by `"." ++ ext`. -/
def withExtension (p ext : String) : String :=
  let cs := p.toList
  let cut := match lastIdxOf '/' cs with
    | some i => i + 1
    | none => 0
  let dir := cs.take cut
  let name := cs.drop cut
  let stem := match lastIdxOf '.' name with
    | some j => if j = 0 then name else name.take j
    | none => name
  String.mk (dir ++ stem) ++ "." ++ ext

/-- Modelled from the spec: `ClientKind::config_path` is called by the
config-mutation engine (`src/config_writer.rs` lines 39-41, 89-91) but is
not defined in the provided sources.  Per spec sections 4.1 and 6, global
clients resolve home-relative, project clients cwd-relative, to the same
locations the discovery engine scans; the desktop client resolves to the
first existing candidate and to nothing when neither exists. -/
def config_path (fs : FS) (home cwd : String) : ClientKind → Option String
  | .claudeCodeGlobal => some (home ++ "/.claude.json")
  | .claudeCodeProject => some (cwd ++ "/.mcp.json")
  | .cursorGlobal => some (home ++ "/.cursor/mcp.json")
  | .cursorProject => some (cwd ++ "/.cursor/mcp.json")
  | .vsCodeProject => some (cwd ++ "/.vscode/mcp.json")
  | .windsurf => some (home ++ "/.codeium/windsurf/mcp_config.json")
  | .claudeDesktop =>
    if (fs (desktopCand1 home)).isPresent then some (desktopCand1 home)
    else if (fs (desktopCand2 home)).isPresent then some (desktopCand2 home)
    else none

/-- Modelled from the spec: `ClientKind::servers_key` is called by the
config-mutation engine but not defined in the provided sources.  Per spec
section 6, the IDE-style client nests servers under `servers`; every other
client uses `mcpServers`. -/
def servers_key : ClientKind → String
  | .vsCodeProject => "servers"
  | _ => "mcpServers"

/-- Outcome of one mutation call.  `panicked` marks the paths on which the
Rust code would abort via a `serde_json` indexing panic rather than
return. -/
inductive MutResult where
  | ok
  | err (e : String)
  | panicked
deriving DecidableEq

/-- `read_or_empty` from `src/config_writer.rs` (lines 128-136): a missing
file is an empty JSON object; a present file that fails to parse is a hard
error. -/
def read_or_empty (fs : FS) (path : String) : Except String Json :=
  match fs path with
  | .absent => .ok (.obj [])
  | .malformed e => .error ("invalid JSON in " ++ path ++ ": " ++ e)
  | .valid j => .ok j

/-- `backup` from `src/config_writer.rs` (lines 138-145): if the file
exists, copy it byte-for-byte to the `.bak` sibling (the copy itself is
assumed to succeed in the model). -/
def backup (fs : FS) (path : String) : FS :=
  match fs path with
  | .absent => fs
  | st => fun q => if q = withExtension path "bak" then st else fs q

/-- `write_atomic` from `src/config_writer.rs` (lines 147-157): write the
serialized document to the `.tmp` sibling, then rename it over the
destination.  Serialization and the rename are assumed to succeed. -/
def write_atomic (fs : FS) (path : String) (value : Json) : FS :=
  fun q =>
    if q = path then .valid value
    else if q = withExtension path "tmp" then .absent
    else fs q

/-- `serde_json::Map::insert`: replace the value at an existing key in
place, otherwise append the binding. -/
def insertKey : List (String × Json) → String → Json → List (String × Json)
  | [], k, v => [(k, v)]
  | (k', v') :: rest, k, v =>
    if k' = k then (k, v) :: rest else (k', v') :: insertKey rest k v

/-- `serde_json::Value`'s `IndexMut`-based assignment `j[k] = v`: objects
insert, `Null` becomes a fresh object, every other variant panics
(`none`). -/
def Json.setKey : Json → String → Json → Option Json
  | .obj fields, k, v => some (.obj (insertKey fields k v))
  | .null, k, v => some (.obj [(k, v)])
  | _, _, _ => none

/-- The two-level assignment `root[k1][k2] = v`: `root[k1]` is looked up
(missing keys behave as `Null`), the inner assignment must not panic, and
the updated inner value is stored back. -/
def setPath2 (root : Json) (k1 k2 : String) (v : Json) : Option Json :=
  match root with
  | .obj fields =>
    (((lookupField fields k1).getD .null).setKey k2 v).map
      (fun inner => .obj (insertKey fields k1 inner))
  | .null =>
    (Json.null.setKey k2 v).map (fun inner => .obj [(k1, inner)])
  | _ => none

/-- The structural insertion step of `add_server` (lines 56-78):
the project client auto-detects wrapped versus flat form, every other
client ensures its servers key exists then inserts under it.  `none`
marks a `serde_json` indexing panic. -/
def insertServer (client : ClientKind) (root : Json) (name : String)
    (v : Json) : Option Json :=
  let key := servers_key client
  if client = .claudeCodeProject then
    if (root.get "mcpServers").isSome then setPath2 root "mcpServers" name v
    else root.setKey name v
  else
    match (if (root.get key).isNone then root.setKey key (.obj []) else some root) with
    | none => none
    | some r => setPath2 r key name v

/-- Remove every binding of a key from an object's field list
(`serde_json::Map::remove`; association lists may not repeat keys when
produced by parsing, so removing all occurrences is the faithful
reading). -/
def removeKey (l : List (String × Json)) (name : String) :
    List (String × Json) :=
  l.filter (fun p => p.1 ≠ name)

/-- Replace the value bound at an existing key, keeping its position
(`Value::get_mut` followed by in-place mutation). -/
def updateKey : List (String × Json) → String → Json → List (String × Json)
  | [], _, _ => []
  | (k', v') :: rest, k, v =>
    if k' = k then (k, v) :: rest else (k', v') :: updateKey rest k v

/-- The structural removal step of `remove_server` (lines 97-123): the
global client removes from the root map and from every project map; the
project client removes from the wrapped map when it is an object,
otherwise from the top level; every other client removes from under its
servers key when that is an object. -/
def removeDoc (client : ClientKind) (root : Json) (name : String) : Json :=
  let key := servers_key client
  if client = .claudeCodeGlobal then
    let root1 := match root.get "mcpServers" with
      | some (.obj m) =>
        match root with
        | .obj fields => Json.obj (updateKey fields "mcpServers" (.obj (removeKey m name)))
        | _ => root
      | _ => root
    match root1.get "projects" with
    | some (.obj projs) =>
      match root1 with
      | .obj fields =>
        Json.obj (updateKey fields "projects" (.obj (projs.map (fun p =>
          (p.1, match p.2.get "mcpServers" with
            | some (.obj m) =>
              match p.2 with
              | .obj pf => Json.obj (updateKey pf "mcpServers" (.obj (removeKey m name)))
              | _ => p.2
            | _ => p.2)))))
      | _ => root1
    | _ => root1
  else if client = .claudeCodeProject then
    match root.get "mcpServers" with
    | some (.obj m) =>
      match root with
      | .obj fields => Json.obj (updateKey fields "mcpServers" (.obj (removeKey m name)))
      | _ => root
    | _ =>
      match root with
      | .obj fields => Json.obj (removeKey fields name)
      | _ => root
  else
    match root.get key with
    | some (.obj m) =>
      match root with
      | .obj fields => Json.obj (updateKey fields key (.obj (removeKey m name)))
      | _ => root
    | _ => root

/-- `add_server` from `src/config_writer.rs` (lines 33-81) over the
modelled filesystem.  Parent-directory creation is not modelled (the model
has no directories).  The returned filesystem reflects every write that
happened before the function returned or panicked. -/
def add_server (fs : FS) (home cwd : String) (client : ClientKind)
    (name : String) (value : Json) : MutResult × FS :=
  match config_path fs home cwd client with
  | none => (.err "could not determine config path", fs)
  | some path =>
    match read_or_empty fs path with
    | .error e => (.err e, fs)
    | .ok root =>
      let fs1 := backup fs path
      match insertServer client root name value with
      | none => (.panicked, fs1)
      | some root' => (.ok, write_atomic fs1 path root')

/-- `remove_server` from `src/config_writer.rs` (lines 84-126) over the
modelled filesystem. -/
def remove_server (fs : FS) (home cwd : String) (client : ClientKind)
    (name : String) : MutResult × FS :=
  match config_path fs home cwd client with
  | none => (.err "could not determine config path", fs)
  | some path =>
    match read_or_empty fs path with
    | .error e => (.err e, fs)
    | .ok root =>
      let fs1 := backup fs path
      (.ok, write_atomic fs1 path (removeDoc client root name))

/-- Whether a byte is a UTF-8 continuation byte (`0x80..0xBF`). -/
def isCont (b : UInt8) : Bool := 0x80 ≤ b && b ≤ 0xBF

/-- Decode one UTF-8 scalar value from the front of a byte list, returning
the character and the number of bytes consumed; `none` on an empty list or
an invalid sequence (exactly the sequences `str::from_utf8` rejects). -/
def utf8DecodeOne : List UInt8 → Option (Char × Nat)
  | [] => none
  | b0 :: rest =>
    if b0 ≤ 0x7F then
      some (Char.ofNat b0.toNat, 1)
    else if 0xC2 ≤ b0 && b0 ≤ 0xDF then
      match rest with
      | b1 :: _ =>
        if isCont b1 then
          some (Char.ofNat ((b0.toNat - 0xC0) * 0x40 + (b1.toNat - 0x80)), 2)
        else none
      | _ => none
    else if 0xE0 ≤ b0 && b0 ≤ 0xEF then
      match rest with
      | b1 :: b2 :: _ =>
        let b1ok :=
          if b0 = 0xE0 then 0xA0 ≤ b1 && b1 ≤ 0xBF
          else if b0 = 0xED then 0x80 ≤ b1 && b1 ≤ 0x9F
          else isCont b1
        if b1ok && isCont b2 then
          some (Char.ofNat ((b0.toNat - 0xE0) * 0x1000
            + (b1.toNat - 0x80) * 0x40 + (b2.toNat - 0x80)), 3)
        else none
      | _ => none
    else if 0xF0 ≤ b0 && b0 ≤ 0xF4 then
      match rest with
      | b1 :: b2 :: b3 :: _ =>
        let b1ok :=
          if b0 = 0xF0 then 0x90 ≤ b1 && b1 ≤ 0xBF
          else if b0 = 0xF4 then 0x80 ≤ b1 && b1 ≤ 0x8F
          else isCont b1
        if b1ok && isCont b2 && isCont b3 then
          some (Char.ofNat ((b0.toNat - 0xF0) * 0x40000
            + (b1.toNat - 0x80) * 0x1000 + (b2.toNat - 0x80) * 0x40
            + (b3.toNat - 0x80)), 4)
        else none
      | _ => none
    else none

/-- Fuel-indexed strict UTF-8 decoding loop. -/
def decodeUtf8Go : Nat → List UInt8 → Option (List Char)
  | _, [] => some []
  | 0, _ :: _ => none
  | fuel + 1, l =>
    match utf8DecodeOne l with
    | none => none
    | some (c, n) => (decodeUtf8Go fuel (l.drop n)).map (fun cs => c :: cs)

/-- Model of `std::str::from_utf8`: decode strictly or fail. -/
def decodeUtf8 (l : List UInt8) : Option (List Char) :=
  decodeUtf8Go l.length l

/-- Length of the maximal subpart of an ill-formed sequence at the front
of the list (at least 1); the unit replaced by one `U+FFFD` in lossy
decoding. -/
def invalidLen : List UInt8 → Nat
  | b0 :: b1 :: b2 :: _ =>
    if 0xE0 ≤ b0 && b0 ≤ 0xEF then
      let b1ok :=
        if b0 = 0xE0 then 0xA0 ≤ b1 && b1 ≤ 0xBF
        else if b0 = 0xED then 0x80 ≤ b1 && b1 ≤ 0x9F
        else isCont b1
      if b1ok then (if isCont b2 then 3 else 2) else 1
    else if 0xF0 ≤ b0 && b0 ≤ 0xF4 then
      let b1ok :=
        if b0 = 0xF0 then 0x90 ≤ b1 && b1 ≤ 0xBF
        else if b0 = 0xF4 then 0x80 ≤ b1 && b1 ≤ 0x8F
        else isCont b1
      if b1ok then (if isCont b2 then 3 else 2) else 1
    else 1
  | b0 :: b1 :: [] =>
    if 0xE0 ≤ b0 && b0 ≤ 0xEF then
      let b1ok :=
        if b0 = 0xE0 then 0xA0 ≤ b1 && b1 ≤ 0xBF
        else if b0 = 0xED then 0x80 ≤ b1 && b1 ≤ 0x9F
        else isCont b1
      if b1ok then 2 else 1
    else if 0xF0 ≤ b0 && b0 ≤ 0xF4 then
      let b1ok :=
        if b0 = 0xF0 then 0x90 ≤ b1 && b1 ≤ 0xBF
        else if b0 = 0xF4 then 0x80 ≤ b1 && b1 ≤ 0x8F
        else isCont b1
      if b1ok then 2 else 1
    else 1
  | _ => 1

/-- Fuel-indexed lossy UTF-8 decoding loop: ill-formed maximal subparts
become `U+FFFD`. -/
def lossyGo : Nat → List UInt8 → List Char
  | _, [] => []
  | 0, _ :: _ => []
  | fuel + 1, l =>
    match utf8DecodeOne l with
    | some (c, n) => c :: lossyGo fuel (l.drop n)
    | none => Char.ofNat 0xFFFD :: lossyGo fuel (l.drop (invalidLen l))

/-- Model of `String::from_utf8_lossy`. -/
def lossyUtf8 (l : List UInt8) : String :=
  String.mk (lossyGo l.length l)

/-- `text.find` for the opening brace followed by slicing from it: the
suffix of the text starting at the first brace, if any. -/
def dropToBrace : List Char → Option (List Char)
  | [] => none
  | c :: rest => if c = '{' then some (c :: rest) else dropToBrace rest

/-- JSON whitespace (`serde_json`): space, tab, newline, carriage
return. -/
def isWs (c : Char) : Bool :=
  c = ' ' || c = '\t' || c = '\n' || c = '\r'

/-- Skip leading JSON whitespace. -/
def skipWs : List Char → List Char
  | [] => []
  | c :: rest => if isWs c then skipWs rest else c :: rest

/-- Hexadecimal digit value. -/
def hexVal (c : Char) : Option Nat :=
  if '0' ≤ c ∧ c ≤ '9' then some (c.toNat - '0'.toNat)
  else if 'a' ≤ c ∧ c ≤ 'f' then some (c.toNat - 'a'.toNat + 10)
  else if 'A' ≤ c ∧ c ≤ 'F' then some (c.toNat - 'A'.toNat + 10)
  else none

/-- Four hex digits of a `\u` escape. -/
def parseHex4 : List Char → Option (Nat × List Char)
  | c1 :: c2 :: c3 :: c4 :: rest =>
    match hexVal c1, hexVal c2, hexVal c3, hexVal c4 with
    | some h1, some h2, some h3, some h4 =>
      some (((h1 * 16 + h2) * 16 + h3) * 16 + h4, rest)
    | _, _, _, _ => none
  | _ => none

/-- Decimal digit test. -/
def isDigit (c : Char) : Bool := '0' ≤ c && c ≤ '9'

/-- Take a maximal run of decimal digits. -/
def takeDigits : List Char → List Char × List Char
  | [] => ([], [])
  | c :: rest =>
    if isDigit c then
      let p := takeDigits rest
      (c :: p.1, p.2)
    else ([], c :: rest)

/-- String-literal body parser (after the opening quote): returns the
decoded characters and the remainder after the closing quote.  Mirrors
`serde_json`'s escapes, rejection of unescaped control characters, and
surrogate-pair handling (lone surrogates fail). -/
def parseStrGo : Nat → List Char → Option (List Char × List Char)
  | 0, _ => none
  | _ + 1, [] => none
  | fuel + 1, c :: rest =>
    if c = '"' then some ([], rest)
    else if c = '\\' then
      match rest with
      | [] => none
      | e :: rest2 =>
        if e = '"' ∨ e = '\\' ∨ e = '/' then
          (parseStrGo fuel rest2).map (fun p => (e :: p.1, p.2))
        else if e = 'b' then
          (parseStrGo fuel rest2).map (fun p => (Char.ofNat 0x08 :: p.1, p.2))
        else if e = 'f' then
          (parseStrGo fuel rest2).map (fun p => (Char.ofNat 0x0C :: p.1, p.2))
        else if e = 'n' then
          (parseStrGo fuel rest2).map (fun p => ('\n' :: p.1, p.2))
        else if e = 'r' then
          (parseStrGo fuel rest2).map (fun p => ('\r' :: p.1, p.2))
        else if e = 't' then
          (parseStrGo fuel rest2).map (fun p => ('\t' :: p.1, p.2))
        else if e = 'u' then
          match parseHex4 rest2 with
          | none => none
          | some (n, rest3) =>
            if 0xD800 ≤ n ∧ n ≤ 0xDBFF then
              match rest3 with
              | '\\' :: 'u' :: rest4 =>
                match parseHex4 rest4 with
                | some (m, rest5) =>
                  if 0xDC00 ≤ m ∧ m ≤ 0xDFFF then
                    (parseStrGo fuel rest5).map (fun p =>
                      (Char.ofNat (0x10000 + (n - 0xD800) * 0x400 + (m - 0xDC00)) :: p.1, p.2))
                  else none
                | none => none
              | _ => none
            else if 0xDC00 ≤ n ∧ n ≤ 0xDFFF then none
            else (parseStrGo fuel rest3).map (fun p => (Char.ofNat n :: p.1, p.2))
        else none
    else if c.toNat < 0x20 then none
    else (parseStrGo fuel rest).map (fun p => (c :: p.1, p.2))

/-- Number-token lexer following `serde_json`'s grammar (no leading zeros,
fraction and exponent require digits); returns the lexeme. -/
def parseNumberLex (cs : List Char) : Option (List Char × List Char) :=
  let sign : List Char × List Char :=
    match cs with
    | '-' :: r => (['-'], r)
    | _ => ([], cs)
  match sign.2 with
  | [] => none
  | d :: r =>
    if ¬ isDigit d then none
    else
      let ip : Option (List Char × List Char) :=
        if d = '0' then
          match r with
          | d2 :: _ => if isDigit d2 then none else some (['0'], r)
          | [] => some (['0'], [])
        else some (d :: (takeDigits r).1, (takeDigits r).2)
      match ip with
      | none => none
      | some (ipart, rest1) =>
        let fr : Option (List Char × List Char) :=
          match rest1 with
          | '.' :: r2 =>
            match takeDigits r2 with
            | ([], _) => none
            | (ds, r3) => some ('.' :: ds, r3)
          | _ => some ([], rest1)
        match fr with
        | none => none
        | some (fpart, rest2) =>
          let ex : Option (List Char × List Char) :=
            match rest2 with
            | e :: r4 =>
              if e = 'e' ∨ e = 'E' then
                let sgn : List Char × List Char :=
                  match r4 with
                  | s :: r5 => if s = '+' ∨ s = '-' then ([s], r5) else ([], r4)
                  | [] => ([], r4)
                match takeDigits sgn.2 with
                | ([], _) => none
                | (ds, r6) => some (e :: (sgn.1 ++ ds), r6)
              else some ([], rest2)
            | [] => some ([], [])
          match ex with
          | none => none
          | some (epart, rest3) => some (sign.1 ++ ipart ++ fpart ++ epart, rest3)

mutual

/-- Fuel-indexed JSON value parser mirroring `serde_json::from_str`'s
grammar (the fuel stands in for serde's recursion limit). -/
def parseValue : Nat → List Char → Option (Json × List Char)
  | 0, _ => none
  | fuel + 1, cs =>
    match skipWs cs with
    | [] => none
    | c :: rest =>
      if c = '{' then parseObjBody fuel rest
      else if c = '[' then parseArrBody fuel rest
      else if c = '"' then
        (parseStrGo (rest.length + 1) rest).map
          (fun p => (.str (String.mk p.1), p.2))
      else if c = 't' then
        match rest with
        | 'r' :: 'u' :: 'e' :: r => some (.bool true, r)
        | _ => none
      else if c = 'f' then
        match rest with
        | 'a' :: 'l' :: 's' :: 'e' :: r => some (.bool false, r)
        | _ => none
      else if c = 'n' then
        match rest with
        | 'u' :: 'l' :: 'l' :: r => some (.null, r)
        | _ => none
      else if c = '-' ∨ isDigit c then
        (parseNumberLex (c :: rest)).map (fun p => (.num (String.mk p.1), p.2))
      else none

/-- Object body (after the opening brace). -/
def parseObjBody : Nat → List Char → Option (Json × List Char)
  | 0, _ => none
  | fuel + 1, cs =>
    match skipWs cs with
    | '}' :: r => some (.obj [], r)
    | cs2 =>
      (parseMembers fuel cs2).map (fun p =>
        (.obj (p.1.foldl (fun acc q => insertKey acc q.1 q.2) []), p.2))

/-- Object members (`"key": value` separated by commas), returning the
bindings in textual order; duplicates are resolved by `insertKey` at the
object-construction site (later bindings win, as in `serde_json`). -/
def parseMembers : Nat → List Char → Option (List (String × Json) × List Char)
  | 0, _ => none
  | fuel + 1, cs =>
    match cs with
    | '"' :: r =>
      match parseStrGo (r.length + 1) r with
      | none => none
      | some (key, r2) =>
        match skipWs r2 with
        | ':' :: r3 =>
          match parseValue fuel r3 with
          | none => none
          | some (v, r4) =>
            match skipWs r4 with
            | ',' :: r5 =>
              (parseMembers fuel (skipWs r5)).map
                (fun p => ((String.mk key, v) :: p.1, p.2))
            | '}' :: r5 => some ([(String.mk key, v)], r5)
            | _ => none
        | _ => none
    | _ => none

/-- Array body (after the opening bracket). -/
def parseArrBody : Nat → List Char → Option (Json × List Char)
  | 0, _ => none
  | fuel + 1, cs =>
    match skipWs cs with
    | ']' :: r => some (.arr [], r)
    | cs2 => (parseElems fuel cs2).map (fun p => (.arr p.1, p.2))

/-- Array elements separated by commas. -/
def parseElems : Nat → List Char → Option (List Json × List Char)
  | 0, _ => none
  | fuel + 1, cs =>
    match parseValue fuel cs with
    | none => none
    | some (v, r) =>
      match skipWs r with
      | ',' :: r2 => (parseElems fuel r2).map (fun p => (v :: p.1, p.2))
      | ']' :: r2 => some ([v], r2)
      | _ => none

end

/-- Model of `serde_json::from_str::<Value>`: one complete value, with
only whitespace allowed after it. -/
def parseJsonText (cs : List Char) : Option Json :=
  match parseValue (4 * cs.length + 4) cs with
  | some (v, rest) => if (skipWs rest).isEmpty then some v else none
  | none => none

/-- `try_parse_response` from `src/health.rs` (lines 148-178): decode the
buffer as UTF-8, slice from the first brace, parse one JSON value; a
`result` member yields `Healthy` (serverInfo name/version defaulting to
"unknown"), an `error` member yields `Error` with its message, anything
else is "not yet the answer". -/
def try_parse_response (data : List UInt8) : Option HealthStatus :=
  match decodeUtf8 data with
  | none => none
  | some text =>
    match dropToBrace text with
    | none => none
    | some jsonChars =>
      match parseJsonText jsonChars with
      | none => none
      | some val =>
        if (val.get "result").isSome then
          some (.healthy
            ((Json.as_str (((val.index "result").index "serverInfo").index "name")).getD "unknown")
            ((Json.as_str (((val.index "result").index "serverInfo").index "version")).getD "unknown"))
        else
          match val.get "error" with
          | some err =>
            some (.error ("server error: "
              ++ ((Json.as_str (err.index "message")).getD "unknown error")))
          | none => none

/-- The stdout reader thread of `check_stdio` (`src/health.rs` lines
98-132), as a function of the successful reads (chunks) delivered before
end-of-file: after each chunk the accumulated buffer is re-checked; at
end-of-file an empty buffer means no response, an unparseable buffer
yields an error with a preview capped at 200 bytes. -/
def readerRun : List (List UInt8) → List UInt8 → Except String HealthStatus
  | [], output =>
    match try_parse_response output with
    | some st => .ok st
    | none =>
      if output.isEmpty then .error "no response from server"
      else .error ("invalid response: " ++ lossyUtf8 (output.take 200))
  | chunk :: rest, output =>
    let out := output ++ chunk
    match try_parse_response out with
    | some st => .ok st
    | none => readerRun rest out

/-- `HealthResult` from `src/types.rs` (`checked_at : Instant` is not
modelled). -/
structure HealthResult where
  server_index : Nat
  status : HealthStatus
deriving DecidableEq

/-- The fixed probe deadline (`TIMEOUT` in `src/health.rs`), in seconds. -/
def TIMEOUT_SECS : Nat := 5

/-- What `recv_timeout(TIMEOUT)` observed: a message from the reader
thread within the deadline, or the deadline elapsing first.  Wall-clock
time itself is not modelled. -/
inductive RecvOutcome where
  | received (r : Except String HealthStatus)
  | timedOut

/-- Process-management effects of a probe, in order of occurrence. -/
inductive ProbeEvent where
  | killed
  | reaped
deriving DecidableEq

/-- The body of `check_stdio` after a successful spawn (`src/health.rs`
lines 87-143): the failed-stdout-capture path kills and reaps before
returning, and the main path maps the channel outcome to a status and
then kills and reaps.  Returns the status and the process-management
trace. -/
def check_stdio_run (stdoutCaptured : Bool) (recv : RecvOutcome) :
    HealthStatus × List ProbeEvent :=
  if stdoutCaptured then
    (match recv with
     | .received (.ok st) => st
     | .received (.error e) => .error e
     | .timedOut => .timeout,
     [.killed, .reaped])
  else
    (.error "failed to capture stdout", [.killed, .reaped])

/-- `check_server` from `src/health.rs` (lines 14-24): only stdio servers
are probed (the probe itself — `check_stdio` — is passed as a function);
every other transport maps to a fixed error without consulting the
probe. -/
def check_server
    (probe : String → List String → Option (List (String × String)) → HealthStatus)
    (index : Nat) (server : McpServer) : HealthResult :=
  { server_index := index,
    status :=
      match server.transport with
      | .stdio command args => probe command args server.env
      | _ => .error "health check only supports stdio servers" }

/-- Pointwise update of the modelled filesystem at one path. -/
def updateFS (fs : FS) (p : String) (st : FileState) : FS :=
  fun q => if q = p then st else fs q

/-- Concrete `~/.claude.json` document with the name `s` both in the root
map and in a project map (used to witness the global-scan merge). -/
def demoCCRoot : Json :=
  .obj [("mcpServers", .obj [("s", .obj [("command", .str "rootCmd")])]),
        ("projects", .obj [("/p1",
          .obj [("mcpServers", .obj [("s", .obj [("command", .str "projCmd")])])])])]

/-- Filesystem whose first Claude Desktop candidate is malformed while the
second candidate is a valid config with one server. -/
def demoDeskFS : FS := fun q =>
  if q = desktopCand1 "h" then .malformed "bad"
  else if q = desktopCand2 "h" then
    .valid (.obj [("mcpServers", .obj [("s", .obj [("command", .str "x")])])])
  else .absent

/-- Filesystem with a single malformed file at the project `.mcp.json`
location. -/
def demoScanFS : FS := fun q =>
  if q = "c/.mcp.json" then .malformed "bad" else .absent

/-- Filesystem with a single malformed file at the global Cursor config
location. -/
def demoMalFS : FS := fun q =>
  if q = "h/.cursor/mcp.json" then .malformed "boom" else .absent

/-- Filesystem whose global Cursor config maps `mcpServers` to a number:
the input on which `add_server` hits `serde_json`'s indexing panic. -/
def demoPanicFS : FS := fun q =>
  if q = "h/.cursor/mcp.json" then .valid (.obj [("mcpServers", .num "5")])
  else .absent

/-- Filesystem with a valid global Cursor config holding one server. -/
def demoValidFS : FS := fun q =>
  if q = "h/.cursor/mcp.json" then
    .valid (.obj [("mcpServers", .obj [("x", .obj [])])])
  else .absent

theorem as_str_str (s : String) : Json.as_str (Json.str s) = some s := rfl

theorem filterMapStr (l : List String) :
    List.filterMap (Json.as_str ∘ Json.str) l = l := by
  induction l with
  | nil => rfl
  | cons a as ih => simp [as_str_str, Function.comp, ih]

theorem filterMapStrM (l : List String) :
    List.filterMap Json.as_str (List.map Json.str l) = l := by
  induction l with
  | nil => rfl
  | cons a as ih => simp [as_str_str, ih]

theorem filterMapStrPair (l : List (String × String)) :
    List.filterMap ((fun p => (Json.as_str p.2).map (fun s => (p.1, s)))
      ∘ (fun p => (p.1, Json.str p.2))) l = l := by
  induction l with
  | nil => rfl
  | cons a as ih => simp [as_str_str, Function.comp, ih]

theorem filterMapStrPairM (l : List (String × String)) :
    List.filterMap (fun p => Option.map (fun s => (p.1, s)) (Json.as_str p.2))
      (List.map (fun p => (p.1, Json.str p.2)) l) = l := by
  induction l with
  | nil => rfl
  | cons a as ih => simp [as_str_str, ih]

/-- C1: for every command string, argument list, and environment map,
building a server JSON value with `build_server_value` and decoding it
back through the discovery parser yields the identical triple:
`parse_transport` recovers exactly the command and argument list, and the
env string-map parser recovers exactly the environment map (an empty map
is encoded by omitting the `env` key, which decodes to `none`). -/
theorem c1_build_decode_roundtrip (command : String) (args : List String)
    (env : List (String × String)) :
    parse_transport (build_server_value command args env)
        = Transport.stdio command args ∧
    parse_string_map ((build_server_value command args env).get "env")
        = (if env.isEmpty then none else some env) := by
  by_cases ha : args = [] <;> by_cases he : env = [] <;>
    constructor <;>
    simp [build_server_value, ha, he, List.isEmpty_iff, parse_transport,
      parse_string_map, strField, Json.get, lookupField, Json.as_object,
      Json.as_array, as_str_str, filterMapStr, filterMapStrM,
      filterMapStrPair, filterMapStrPairM]

theorem filter_name_nil (n : String) (l : List McpServer)
    (h : n ∉ l.map McpServer.name) :
    l.filter (fun s => s.name == n) = [] := by
  induction l with
  | nil => rfl
  | cons s rest ih =>
    simp only [List.map_cons, List.mem_cons] at h
    push_neg at h
    simp [List.filter_cons, Ne.symm h.1, ih h.2]

theorem find_name_none (n : String) (l : List McpServer)
    (h : n ∉ l.map McpServer.name) :
    l.find? (fun s => s.name == n) = none := by
  induction l with
  | nil => rfl
  | cons s rest ih =>
    simp only [List.map_cons, List.mem_cons] at h
    push_neg at h
    simp [List.find?_cons, Ne.symm h.1, ih h.2]

theorem filter_name_nodup (n : String) (l : List McpServer)
    (h : (l.map McpServer.name).Nodup) :
    l.filter (fun s => s.name == n)
      = (l.find? (fun s => s.name == n)).toList := by
  induction l with
  | nil => rfl
  | cons s rest ih =>
    simp only [List.map_cons, List.nodup_cons] at h
    by_cases hn : s.name = n
    · subst hn
      simp [List.filter_cons, List.find?_cons, filter_name_nil s.name rest h.1]
    · simp [List.filter_cons, List.find?_cons, hn, ih h.2]

theorem dedup_filter_seen (n : String) (l : List McpServer) :
    ∀ seen : List String, n ∈ seen →
    (dedupByName seen l).filter (fun s => s.name == n) = [] := by
  induction l with
  | nil => intro seen _; rfl
  | cons s rest ih =>
    intro seen hn
    by_cases hc : seen.contains s.name
    · simp only [dedupByName, if_pos hc]
      exact ih _ (List.mem_cons_of_mem _ hn)
    · have hne : ¬(s.name = n) := by
        intro he
        exact hc (by simp [he, hn])
      simp only [dedupByName, if_neg hc]
      simp [List.filter_cons, hne, ih (s.name :: seen) (List.mem_cons_of_mem _ hn)]

theorem dedup_filter_unseen (n : String) (l : List McpServer) :
    ∀ seen : List String, n ∉ seen →
    (dedupByName seen l).filter (fun s => s.name == n)
      = (l.find? (fun s => s.name == n)).toList := by
  induction l with
  | nil => intro seen _; rfl
  | cons s rest ih =>
    intro seen hn
    by_cases he : s.name = n
    · subst he
      have hc : ¬(seen.contains s.name) := by simpa using hn
      simp only [dedupByName, if_neg hc]
      simp [List.filter_cons, List.find?_cons,
        dedup_filter_seen s.name rest (s.name :: seen) (List.mem_cons_self _ _)]
    · have hmem : n ∉ s.name :: seen := by
        simp only [List.mem_cons]
        push_neg
        exact ⟨fun h => he h.symm, hn⟩
      by_cases hc : seen.contains s.name
      · simp only [dedupByName, if_pos hc]
        rw [ih (s.name :: seen) hmem]
        simp [List.find?_cons, he]
      · simp only [dedupByName, if_neg hc]
        rw [List.filter_cons]
        simp only [show (s.name == n) = false by simp [he]]
        rw [ih (s.name :: seen) hmem]
        simp [List.find?_cons, he]

/-- C2: in the global-client scan, for any name, the scan output contains
exactly the first-seen record for that name in root-then-projects order:
root entries are inserted first and win over project entries, and
earlier-processed projects win over later ones, so a name present in the
root map and any project map (or in two distinct project maps) yields
exactly one record, bearing the first-seen source's data.  The `Nodup`
hypothesis is the `serde_json` map invariant that the root object's keys
are distinct. -/
theorem c2_global_first_seen_wins (root : Json) (src n : String)
    (hnd : ((ccRootMap root).map Prod.fst).Nodup) :
    (ccGlobalServers root src).filter (fun s => s.name == n)
      = ((ccRootServers root src ++ ccProjectServers root src).find?
          (fun s => s.name == n)).toList := by
  have hnames : (ccRootServers root src).map McpServer.name
      = ((ccRootMap root).filter (fun p => p.2.isObj)).map Prod.fst := by
    simp [ccRootServers, parse_server_map, Function.comp]
  have hsub : (((ccRootMap root).filter (fun p => p.2.isObj)).map Prod.fst).Sublist
      ((ccRootMap root).map Prod.fst) :=
    (List.filter_sublist _).map Prod.fst
  have hndr : ((ccRootServers root src).map McpServer.name).Nodup := by
    rw [hnames]; exact hnd.sublist hsub
  rw [ccGlobalServers, List.filter_append, List.find?_append]
  by_cases hm : n ∈ (ccRootServers root src).map McpServer.name
  · rw [filter_name_nodup n _ hndr,
        dedup_filter_seen n _ _ hm, List.append_nil]
    obtain ⟨s, hs, hps⟩ := List.exists_of_mem_map hm
    have : (List.find? (fun s => s.name == n) (ccRootServers root src)).isSome := by
      rw [List.find?_isSome]
      exact ⟨s, hs, by simp [hps]⟩
    obtain ⟨v, hv⟩ := Option.isSome_iff_exists.mp this
    rw [hv]; rfl
  · rw [filter_name_nil n _ hm, find_name_none n _ hm,
        dedup_filter_unseen n _ _ (by simpa using hm)]
    rfl

/-- Witness for C2 at a concrete `~/.claude.json` document in which the
name `s` appears both in the root map and in one project map. -/
theorem c2_global_first_seen_wins_witness :
    ((ccRootMap demoCCRoot).map Prod.fst).Nodup ∧
    (ccGlobalServers demoCCRoot "f").filter (fun s => s.name == "s")
      = ((ccRootServers demoCCRoot "f" ++ ccProjectServers demoCCRoot "f").find?
          (fun s => s.name == "s")).toList :=
  ⟨by decide, c2_global_first_seen_wins demoCCRoot "f" "s" (by decide)⟩

/-- C3 counterexample: an object whose explicit `type` names no known
variant (`"weird"`) but has a `command` field is parsed as `Stdio` — the
code does fall back to command inference — whereas the claim says such an
object must be `Unknown` (no fallback). -/
theorem c3_unknown_type_falls_back_cx :
    parse_transport (Json.obj [("type", Json.str "weird"),
        ("command", Json.str "c")])
      = Transport.stdio "c" [] ∧
    parse_transport (Json.obj [("type", Json.str "weird"),
        ("command", Json.str "c")])
      ≠ Transport.unknown := by
  exact ⟨by decide, by decide⟩

/-- C3 amended: the inference precedence is: explicit `type` `"http"` or
`"sse"` selects that variant; otherwise a present `command` field or
explicit `type` `"stdio"` selects `Stdio`; otherwise a present `url`
field selects `Http`; otherwise `Unknown`.  In particular an object whose
explicit `type` names no known variant does fall back to command/url
inference. -/
theorem c3_transport_precedence_amended (j : Json) :
    (strField j "type" = "http" →
      parse_transport j
        = .http (strField j "url") (parse_string_map (j.get "headers"))) ∧
    (strField j "type" = "sse" →
      parse_transport j = .sse (strField j "url")) ∧
    (strField j "type" ≠ "http" → strField j "type" ≠ "sse" →
      ((j.get "command").isSome ∨ strField j "type" = "stdio") →
      parse_transport j = .stdio (strField j "command")
        ((((j.get "args").bind Json.as_array).map
          (fun a => a.filterMap Json.as_str)).getD [])) ∧
    (strField j "type" ≠ "http" → strField j "type" ≠ "sse" →
      strField j "type" ≠ "stdio" → j.get "command" = none →
      (j.get "url").isSome →
      parse_transport j
        = .http (strField j "url") (parse_string_map (j.get "headers"))) ∧
    (strField j "type" ≠ "http" → strField j "type" ≠ "sse" →
      strField j "type" ≠ "stdio" → j.get "command" = none →
      j.get "url" = none →
      parse_transport j = .unknown) := by
  refine ⟨fun h1 => ?_, fun h1 => ?_, fun h1 h2 h3 => ?_,
    fun h1 h2 h3 h4 h5 => ?_, fun h1 h2 h3 h4 h5 => ?_⟩
  · simp [parse_transport, h1]
  · simp [parse_transport, h1]
  · rcases h3 with h3 | h3 <;> simp [parse_transport, h1, h2, h3]
  · simp [parse_transport, h1, h2, h3, h4, h5]
  · simp [parse_transport, h1, h2, h3, h4, h5]

/-- Witness for C3 amended at the unrecognized-type-with-command input. -/
theorem c3_transport_precedence_amended_witness :
    parse_transport (Json.obj [("type", Json.str "weird"),
        ("command", Json.str "c")])
      = .stdio
          (strField (Json.obj [("type", Json.str "weird"),
            ("command", Json.str "c")]) "command")
          (((((Json.obj [("type", Json.str "weird"),
              ("command", Json.str "c")]).get "args").bind Json.as_array).map
            (fun a => a.filterMap Json.as_str)).getD []) :=
  (c3_transport_precedence_amended
      (Json.obj [("type", Json.str "weird"), ("command", Json.str "c")])).2.2.1
    (by decide) (by decide) (Or.inl (by decide))

theorem runScans_servers_of_malformed (fs : FS) (pm e : String)
    (hm : fs pm = .malformed e) :
    ∀ L, (runScans (updateFS fs pm .absent) L).1 = (runScans fs L).1 := by
  intro L
  induction L with
  | nil => rfl
  | cons entry rest ih =>
    obtain ⟨p, parse⟩ := entry
    by_cases hp : p = pm
    · subst hp
      simp [runScans, scanStepAt, updateFS, hm, ih]
    · simp [runScans, scanStepAt, updateFS, hp, ih]

theorem runScans_errors_nil (fs : FS) :
    ∀ L, (∀ q ∈ L.map Prod.fst, (fs q).isMalformed = false) →
    (runScans fs L).2 = [] := by
  intro L
  induction L with
  | nil => intro _; rfl
  | cons entry rest ih =>
    obtain ⟨p, parse⟩ := entry
    intro h
    have hp : (fs p).isMalformed = false := h p (by simp)
    have hrest := ih (fun q hq => h q (by simp [hq]))
    cases hfs : fs p with
    | absent => simp [runScans, scanStepAt, hfs, hrest]
    | malformed e => rw [hfs] at hp; simp [FileState.isMalformed] at hp
    | valid j => simp [runScans, scanStepAt, hfs, hrest]

theorem runScans_errors_single (fs : FS) (pm e : String)
    (hm : fs pm = .malformed e) :
    ∀ L, pm ∈ L.map Prod.fst → (L.map Prod.fst).Nodup →
    (∀ q ∈ L.map Prod.fst, q ≠ pm → (fs q).isMalformed = false) →
    (runScans fs L).2 = [pm ++ ": " ++ e] := by
  intro L
  induction L with
  | nil => intro h; simp at h
  | cons entry rest ih =>
    obtain ⟨p, parse⟩ := entry
    intro hmem hnd hoth
    simp only [List.map_cons, List.nodup_cons] at hnd
    by_cases hp : p = pm
    · subst hp
      have hrest : (runScans fs rest).2 = [] := by
        apply runScans_errors_nil
        intro q hq
        exact hoth q (by simp [hq]) (fun hqp => hnd.1 (hqp ▸ hq))
      simp [runScans, scanStepAt, hm, hrest]
    · have hmem' : pm ∈ rest.map Prod.fst := by
        simp only [List.map_cons, List.mem_cons] at hmem
        rcases hmem with h | h
        · exact absurd h.symm hp
        · exact h
      have hpm : (fs p).isMalformed = false := hoth p (by simp) hp
      have hrest := ih hmem' hnd.2 (fun q hq hqn => hoth q (by simp [hq]) hqn)
      cases hfs : fs p with
      | absent => simp [runScans, scanStepAt, hfs, hrest]
      | malformed e2 => rw [hfs] at hpm; simp [FileState.isMalformed] at hpm
      | valid j => simp [runScans, scanStepAt, hfs, hrest]

theorem desktopScan_congr (fs fs' : FS) (home : String)
    (h1 : fs' (desktopCand1 home) = fs (desktopCand1 home))
    (h2 : fs' (desktopCand2 home) = fs (desktopCand2 home)) :
    desktopScan fs' home = desktopScan fs home := by
  simp [desktopScan, scanStepAt, h1, h2]

theorem desktopScan_errors_nil (fs : FS) (home : String)
    (h1 : (fs (desktopCand1 home)).isMalformed = false)
    (h2 : (fs (desktopCand2 home)).isMalformed = false) :
    (desktopScan fs home).2 = [] := by
  unfold desktopScan
  cases hfs1 : fs (desktopCand1 home) with
  | absent =>
    simp only [hfs1, FileState.isPresent]
    cases hfs2 : fs (desktopCand2 home) with
    | absent => simp [FileState.isPresent]
    | malformed e => rw [hfs2] at h2; simp [FileState.isMalformed] at h2
    | valid j => simp [FileState.isPresent, scanStepAt, hfs2]
  | malformed e => rw [hfs1] at h1; simp [FileState.isMalformed] at h1
  | valid j => simp [FileState.isPresent, scanStepAt, hfs1]

/-- C4 counterexample: with the first Claude Desktop candidate malformed
and the second candidate valid, the scan has exactly one malformed source
and reports exactly one error string for it, yet the discovered servers
are NOT the same as they would be were the malformed file absent: its
absence would expose the second desktop candidate, which contributes a
server the actual scan never sees. -/
theorem c4_desktop_mask_cx :
    demoDeskFS (desktopCand1 "h") = .malformed "bad" ∧
    (∀ q ∈ (scanList "h" "c").map Prod.fst
        ++ [desktopCand1 "h", desktopCand2 "h"],
      q ≠ desktopCand1 "h" → (demoDeskFS q).isMalformed = false) ∧
    (discover demoDeskFS "h" "c").errors
      = [desktopCand1 "h" ++ ": " ++ "bad"] ∧
    (discover demoDeskFS "h" "c").servers = [] ∧
    (discover (updateFS demoDeskFS (desktopCand1 "h") .absent) "h" "c").servers
      ≠ [] := by
  exact ⟨rfl, by decide, by decide, by decide, by decide⟩

/-- C4 amended: when exactly one scanned source is malformed and that
source is not one of the two Claude Desktop candidate paths, the error
list is exactly the one `"<path>: <error>"` string and the discovered
servers equal those of the scan with that file absent.  (The desktop pair
must be excluded: only the first existing candidate is read, so a
malformed first candidate masks the second and a malformed second behind
an existing first is never read at all.)  The `Nodup` hypothesis rules
out degenerate `home`/`cwd` values that make two scan locations collide
in one path. -/
theorem c4_single_error_isolated_amended (fs : FS) (home cwd pmal e : String)
    (hmem : pmal ∈ (scanList home cwd).map Prod.fst)
    (hnd : ((scanList home cwd).map Prod.fst).Nodup)
    (hm : fs pmal = .malformed e)
    (hoth : ∀ q ∈ (scanList home cwd).map Prod.fst
        ++ [desktopCand1 home, desktopCand2 home],
      q ≠ pmal → (fs q).isMalformed = false)
    (hd1 : pmal ≠ desktopCand1 home) (hd2 : pmal ≠ desktopCand2 home) :
    (discover fs home cwd).errors = [pmal ++ ": " ++ e] ∧
    (discover fs home cwd).servers
      = (discover (updateFS fs pmal .absent) home cwd).servers := by
  have hoth1 : ∀ q ∈ (scanList home cwd).map Prod.fst, q ≠ pmal →
      (fs q).isMalformed = false := by
    intro q hq
    exact hoth q (by simp [hq])
  have hc1 : (fs (desktopCand1 home)).isMalformed = false :=
    hoth (desktopCand1 home) (by simp) (fun h => hd1 h.symm)
  have hc2 : (fs (desktopCand2 home)).isMalformed = false :=
    hoth (desktopCand2 home) (by simp) (fun h => hd2 h.symm)
  have hdesk : desktopScan (updateFS fs pmal .absent) home
      = desktopScan fs home := by
    apply desktopScan_congr <;> simp [updateFS, Ne.symm hd1, Ne.symm hd2]
  constructor
  · simp only [discover]
    rw [runScans_errors_single fs pmal e hm _ hmem hnd hoth1,
        desktopScan_errors_nil fs home hc1 hc2, List.append_nil]
  · simp only [discover]
    rw [runScans_servers_of_malformed fs pmal e hm, hdesk]

/-- Witness for C4 amended: a single malformed project `.mcp.json`. -/
theorem c4_single_error_isolated_amended_witness :
    (discover demoScanFS "h" "c").errors = ["c/.mcp.json" ++ ": " ++ "bad"] ∧
    (discover demoScanFS "h" "c").servers
      = (discover (updateFS demoScanFS "c/.mcp.json" .absent) "h" "c").servers :=
  c4_single_error_isolated_amended demoScanFS "h" "c" "c/.mcp.json" "bad"
    (by decide) (by decide) rfl (by decide) (by decide) (by decide)

/-- C5: when the resolved target file exists but does not parse as JSON,
both `add_server` and `remove_server` return an error and leave the
filesystem untouched — no destination write and no `.bak` file — and a
missing target file reads as the empty JSON object rather than an
error. -/
theorem c5_malformed_target_no_side_effect (fs : FS) (home cwd : String)
    (client : ClientKind) (name : String) (value : Json) (p e : String)
    (hp : config_path fs home cwd client = some p)
    (hmal : fs p = .malformed e) :
    (add_server fs home cwd client name value).1
      = .err ("invalid JSON in " ++ p ++ ": " ++ e) ∧
    (add_server fs home cwd client name value).2 = fs ∧
    (remove_server fs home cwd client name).1
      = .err ("invalid JSON in " ++ p ++ ": " ++ e) ∧
    (remove_server fs home cwd client name).2 = fs ∧
    (∀ (fs2 : FS) (q : String), fs2 q = .absent →
      read_or_empty fs2 q = .ok (Json.obj [])) := by
  refine ⟨?_, ?_, ?_, ?_, fun fs2 q h => by simp [read_or_empty, h]⟩ <;>
    simp [add_server, remove_server, hp, read_or_empty, hmal]

/-- Witness for C5 at a malformed global Cursor config. -/
theorem c5_malformed_target_no_side_effect_witness :
    demoMalFS "h/.cursor/mcp.json" = .malformed "boom" ∧
    ((add_server demoMalFS "h" "c" .cursorGlobal "x" (.obj [])).1
      = .err ("invalid JSON in " ++ "h/.cursor/mcp.json" ++ ": " ++ "boom") ∧
     (add_server demoMalFS "h" "c" .cursorGlobal "x" (.obj [])).2 = demoMalFS ∧
     (remove_server demoMalFS "h" "c" .cursorGlobal "x").1
      = .err ("invalid JSON in " ++ "h/.cursor/mcp.json" ++ ": " ++ "boom") ∧
     (remove_server demoMalFS "h" "c" .cursorGlobal "x").2 = demoMalFS ∧
     (∀ (fs2 : FS) (q : String), fs2 q = .absent →
       read_or_empty fs2 q = .ok (Json.obj []))) :=
  ⟨rfl, c5_malformed_target_no_side_effect demoMalFS "h" "c" .cursorGlobal
    "x" (.obj []) "h/.cursor/mcp.json" "boom" rfl rfl⟩

/-- C6 counterexample: a health check of a non-stdio (http) server
resolves to the error message the code actually uses — `"health check
only supports stdio servers"` — which differs from the message
`"unsupported transport"` stated by the claim. -/
theorem c6_error_message_cx :
    (check_server (fun _ _ _ => HealthStatus.unchecked) 0
      { name := "r", client := .cursorGlobal, source_path := "p",
        transport := .http "u" none, env := none,
        health := .unchecked }).status
      = .error "health check only supports stdio servers" ∧
    (check_server (fun _ _ _ => HealthStatus.unchecked) 0
      { name := "r", client := .cursorGlobal, source_path := "p",
        transport := .http "u" none, env := none,
        health := .unchecked }).status
      ≠ .error "unsupported transport" := by
  exact ⟨rfl, by decide⟩

/-- C6 amended: for every server whose transport is not `Stdio` (http,
sse, or unknown), the health check resolves to
`Error("health check only supports stdio servers")` and its result is
independent of the probe function — no probe (hence no process spawn) is
consulted; a stdio server's check is exactly the probe's answer. -/
theorem c6_non_stdio_not_probed_amended
    (probe probe' : String → List String →
      Option (List (String × String)) → HealthStatus)
    (i : Nat) (s : McpServer) :
    (s.transport.is_stdio = false →
      (check_server probe i s).status
        = .error "health check only supports stdio servers" ∧
      check_server probe i s = check_server probe' i s) ∧
    (∀ c a, s.transport = .stdio c a →
      (check_server probe i s).status = probe c a s.env) := by
  constructor
  · intro h
    cases ht : s.transport <;> simp [ht, Transport.is_stdio] at h ⊢ <;>
      simp [check_server, ht]
  · intro c a ht
    simp [check_server, ht]

/-- Witness for C6 amended at a concrete sse server and two distinct
probe functions. -/
theorem c6_non_stdio_not_probed_amended_witness :
    (check_server (fun _ _ _ => HealthStatus.unchecked) 3
      { name := "r", client := .windsurf, source_path := "p",
        transport := .sse "u", env := none, health := .unchecked }).status
      = .error "health check only supports stdio servers" ∧
    check_server (fun _ _ _ => HealthStatus.unchecked) 3
      { name := "r", client := .windsurf, source_path := "p",
        transport := .sse "u", env := none, health := .unchecked }
      = check_server (fun _ _ _ => HealthStatus.timeout) 3
      { name := "r", client := .windsurf, source_path := "p",
        transport := .sse "u", env := none, health := .unchecked } :=
  (c6_non_stdio_not_probed_amended (fun _ _ _ => HealthStatus.unchecked)
    (fun _ _ _ => HealthStatus.timeout) 3
    { name := "r", client := .windsurf, source_path := "p",
      transport := .sse "u", env := none, health := .unchecked }).1 rfl

theorem readerRun_eof (chunks : List (List UInt8)) :
    ∀ output : List UInt8,
    (∀ i ≤ chunks.length,
      try_parse_response (output ++ (chunks.take i).flatten) = none) →
    readerRun chunks output =
      (if (output ++ chunks.flatten).isEmpty then
        Except.error "no response from server"
      else
        Except.error ("invalid response: "
          ++ lossyUtf8 ((output ++ chunks.flatten).take 200))) := by
  induction chunks with
  | nil =>
    intro output h
    have h0 := h 0 (by omega)
    simp only [List.take_nil, List.flatten_nil, List.append_nil] at h0 ⊢
    simp [readerRun, h0]
  | cons c rest ih =>
    intro output h
    have h1 := h 1 (by simp)
    simp only [List.take_succ_cons, List.take_zero, List.flatten_cons,
      List.flatten_nil, List.append_nil] at h1
    have ih' := ih (output ++ c) (fun i hi => by
      have := h (i + 1) (by simpa using hi)
      simpa [List.take_succ_cons, List.flatten_cons, List.append_assoc] using this)
    simp only [readerRun, h1, ih', List.flatten_cons, List.append_assoc]

/-- C7: if the reader reaches end-of-file having received zero bytes, the
probe resolves to `Error("no response from server")`; if bytes were
received but no complete result/error JSON value was ever parsed, it
resolves to an `Error` whose preview is built from at most the first 200
bytes of the unparsed output. -/
theorem c7_eof_outcomes :
    (∀ chunks : List (List UInt8), chunks.flatten = [] →
      readerRun chunks [] = .error "no response from server") ∧
    (∀ chunks : List (List UInt8),
      (∀ i ≤ chunks.length,
        try_parse_response ((chunks.take i).flatten) = none) →
      chunks.flatten ≠ [] →
      readerRun chunks [] = .error ("invalid response: "
        ++ lossyUtf8 (chunks.flatten.take 200)) ∧
      (chunks.flatten.take 200).length ≤ 200) := by
  constructor
  · intro chunks hz
    have hall : ∀ i ≤ chunks.length,
        try_parse_response ([] ++ (chunks.take i).flatten) = none := by
      intro i hi
      have : (chunks.take i).flatten = [] := by
        rw [List.flatten_eq_nil_iff] at hz ⊢
        exact fun l hl => hz l (List.mem_of_mem_take hl)
      simp [this]
      rfl
    rw [readerRun_eof chunks [] hall]
    simp [hz]
  · intro chunks h hne
    have hall : ∀ i ≤ chunks.length,
        try_parse_response ([] ++ (chunks.take i).flatten) = none := by
      intro i hi
      simpa using h i hi
    constructor
    · rw [readerRun_eof chunks [] hall]
      simp [hne]
    · have := List.length_take 200 chunks.flatten
      omega

/-- Witness for C7: the two-chunk non-JSON stream `"hi"` then `"!"`. -/
theorem c7_eof_outcomes_witness :
    readerRun [[104, 105], [33]] []
      = .error ("invalid response: "
        ++ lossyUtf8 (([[104, 105], [33]] : List (List UInt8)).flatten.take 200)) ∧
    (([[104, 105], [33]] : List (List UInt8)).flatten.take 200).length ≤ 200 :=
  c7_eof_outcomes.2 [[104, 105], [33]] (by decide) (by decide)

/-- C8: on every post-spawn code path of a stdio probe — healthy, error,
timeout, and the failed-stdout-capture path alike — the child process is
killed exactly once and reaped exactly once before the probe returns; if
the channel deadline elapses with no resolution the status is `Timeout`;
and the deadline constant is 5 seconds.  Wall-clock time is abstracted
into the `RecvOutcome` observation of `recv_timeout`. -/
theorem c8_timeout_and_single_reap (stdoutCaptured : Bool)
    (recv : RecvOutcome) :
    (check_stdio_run stdoutCaptured recv).2.count .killed = 1 ∧
    (check_stdio_run stdoutCaptured recv).2.count .reaped = 1 ∧
    (recv = .timedOut → stdoutCaptured = true →
      (check_stdio_run stdoutCaptured recv).1 = .timeout) ∧
    TIMEOUT_SECS = 5 := by
  cases stdoutCaptured <;>
    rcases recv with ⟨_ | _⟩ | _ <;>
    refine ⟨by rfl, by rfl, ?_, rfl⟩ <;> simp [check_stdio_run]

/-- Witness for C8 at the timed-out scenario. -/
theorem c8_timeout_and_single_reap_witness :
    (check_stdio_run true .timedOut).2.count .killed = 1 ∧
    (check_stdio_run true .timedOut).2.count .reaped = 1 ∧
    (RecvOutcome.timedOut = RecvOutcome.timedOut → true = true →
      (check_stdio_run true .timedOut).1 = .timeout) ∧
    TIMEOUT_SECS = 5 :=
  c8_timeout_and_single_reap true .timedOut

/-- C9: evaluation of `add_server` at a config file whose `mcpServers`
key maps to the number `5`: the model reaches the `panicked` outcome,
mirroring the `serde_json` `IndexMut` panic
(`root[key][name] = value` on a non-object, non-null value) that aborts
the real process, contradicting the claim that every core operation
returns a status or error value. -/
theorem c9_add_server_panics :
    (add_server demoPanicFS "h" "c" .cursorGlobal "x"
      (.obj [("command", .str "srv")])).1 = MutResult.panicked := by
  decide

theorem removeDoc_empty (client : ClientKind) (name : String) :
    removeDoc client (.obj []) name = .obj [] := by
  cases client <;> simp [removeDoc, Json.get, lookupField, removeKey]

/-- C10: for every client kind and server name with a resolvable config
path, `remove_server` on a missing target file succeeds and creates the
destination containing the empty JSON object; and on any parseable target
it succeeds, rewrites the destination with the removal-applied document
(even when no entry with that name was present), and leaves a `.bak`
sibling holding the prior content.  The two inequality hypotheses rule
out degenerate paths whose `.bak` sibling coincides with the destination
or its `.tmp` sibling. -/
theorem c10_remove_server_always_writes (fs : FS) (home cwd : String)
    (client : ClientKind) (name p : String)
    (hp : config_path fs home cwd client = some p) :
    (fs p = .absent →
      (remove_server fs home cwd client name).1 = .ok ∧
      (remove_server fs home cwd client name).2 p = .valid (.obj [])) ∧
    (∀ j : Json, fs p = .valid j →
      withExtension p "bak" ≠ p →
      withExtension p "bak" ≠ withExtension p "tmp" →
      (remove_server fs home cwd client name).1 = .ok ∧
      (remove_server fs home cwd client name).2 p
        = .valid (removeDoc client j name) ∧
      (remove_server fs home cwd client name).2 (withExtension p "bak")
        = .valid j) := by
  constructor
  · intro habs
    refine ⟨?_, ?_⟩ <;>
      simp [remove_server, hp, read_or_empty, habs, backup, write_atomic,
        removeDoc_empty]
  · intro j hval hbp hbt
    refine ⟨?_, ?_, ?_⟩ <;>
      simp [remove_server, hp, read_or_empty, hval, backup, write_atomic,
        hbp, hbt]

/-- Witness for C10: removal against a missing global Cursor config, and
against a present one that does contain the entry. -/
theorem c10_remove_server_always_writes_witness :
    ((remove_server (fun _ => .absent) "h" "c" .cursorGlobal "x").1 = .ok ∧
     (remove_server (fun _ => .absent) "h" "c" .cursorGlobal "x").2
        "h/.cursor/mcp.json" = .valid (.obj [])) ∧
    ((remove_server demoValidFS "h" "c" .cursorGlobal "x").1 = .ok ∧
     (remove_server demoValidFS "h" "c" .cursorGlobal "x").2
        "h/.cursor/mcp.json"
       = .valid (removeDoc .cursorGlobal
          (.obj [("mcpServers", .obj [("x", .obj [])])]) "x") ∧
     (remove_server demoValidFS "h" "c" .cursorGlobal "x").2
        (withExtension "h/.cursor/mcp.json" "bak")
       = .valid (.obj [("mcpServers", .obj [("x", .obj [])])])) :=
  ⟨(c10_remove_server_always_writes (fun _ => .absent) "h" "c" .cursorGlobal
      "x" "h/.cursor/mcp.json" rfl).1 rfl,
   (c10_remove_server_always_writes demoValidFS "h" "c" .cursorGlobal
      "x" "h/.cursor/mcp.json" rfl).2
     (.obj [("mcpServers", .obj [("x", .obj [])])]) rfl
     (by decide) (by decide)⟩
